import Mathlib

/-!
# Augmented-reality overlay demos: geometry generation and display loop

A shallow embedding of `src/ar.cpp`, `src/ar_main.cpp` and `src/gif_main.cpp`.

Conventions of the embedding:

* `float` / `double` coordinates are rationals (`ℚ`) and their arithmetic is exact; the
  one rounding modelled is the store of an `int` in a `float` (`float_of_int`), used by
  `get_point_set`.
* `std::vector<T> &` output parameters are lists that the function returns
  together with its `int` return value; `push_back` is `· ++ [p]`.
* Calls into the vision library are parameters or input records of the models.
-/

namespace AR

/-! ## Data model -/

/-- The `cv::Vec3f` of the source: three coordinates. -/
structure Vec3f where
  x : ℚ
  y : ℚ
  z : ℚ
deriving DecidableEq, Repr

/-- The `cv::Size` of the source: `int` width and height. -/
structure Size where
  width : Int
  height : Int
deriving DecidableEq, Repr

/-! ## `ar.cpp` -/

/-- The number of low bits a magnitude `a` loses when it is stored with the 24-bit
significand of a `float`: 0 below `2^24`, else one more than for `a / 2`. -/
def float_exp : Nat → Nat → Nat
  | 0, _ => 0
  | fuel + 1, a => if a < 2 ^ 24 then 0 else float_exp fuel (a / 2) + 1

/-- The conversion of an `int` to `float` (IEEE binary32, round to nearest, ties to even),
as done by the stores `point3d[0] = j` and `point3d[1] = -i`: the value of the `float`
as a rational. The fuel covers every magnitude below `2^128`, so every `int`. -/
def float_of_int (n : Int) : ℚ :=
  let a := n.natAbs
  let e := float_exp 104 a
  let q := a / 2 ^ e
  let r := a % 2 ^ e
  let q := if 2 * r > 2 ^ e ∨ (2 * r = 2 ^ e ∧ q % 2 = 1) then q + 1 else q
  ((n.sign * ((q * 2 ^ e : Nat) : Int) : Int) : ℚ)

/-- The body of the inner loop of `get_point_set`: the point pushed for row `i`, column
`j`, each `int` stored as a `float`. -/
def get_point_set_point (i j : Nat) : Vec3f :=
  { x := float_of_int (j : Int), y := float_of_int (-(i : Int)), z := float_of_int 0 }

/-- The function `get_point_set` of `ar.cpp`: `for i < height { for j < width { push (j, -i, 0) } }; return 0`. -/
def get_point_set (pat_size : Size) (point_set : List Vec3f) : Int × List Vec3f :=
  let out :=
    (List.range pat_size.height.toNat).foldl
      (fun ps i =>
        (List.range pat_size.width.toNat).foldl
          (fun ps j => ps ++ [get_point_set_point i j]) ps)
      point_set
  (0, out)

/-- The function `draw_axes` of `ar.cpp`: pushes four literal points; `origin` and `scale` are not read. -/
def draw_axes (points : List Vec3f) (_origin : Vec3f) (_scale : ℚ) : Int × List Vec3f :=
  let points := points ++ [Vec3f.mk 0 0 0] -- origin
  let points := points ++ [Vec3f.mk 0 0 1] -- z axis
  let points := points ++ [Vec3f.mk 1 0 0] -- x axis
  let points := points ++ [Vec3f.mk 0 1 0] -- y axis
  (0, points)

/-- The function `draw_cube` of `ar.cpp`. -/
def draw_cube (points : List Vec3f) (origin : Vec3f) (scale : ℚ) : Int × List Vec3f :=
  let xo := origin.x
  let yo := origin.y
  let zo := origin.z
  let points := points ++ [Vec3f.mk (xo + scale * 0) (yo - scale * 0) (zo + scale * 0)] -- 0
  let points := points ++ [Vec3f.mk (xo + scale * 1) (yo - scale * 0) (zo + scale * 0)] -- 1
  let points := points ++ [Vec3f.mk (xo + scale * 1) (yo - scale * 0) (zo + scale * 1)] -- 2
  let points := points ++ [Vec3f.mk (xo + scale * 0) (yo - scale * 0) (zo + scale * 1)] -- 3
  let points := points ++ [Vec3f.mk (xo + scale * 0) (yo - scale * 1) (zo + scale * 0)] -- 4
  let points := points ++ [Vec3f.mk (xo + scale * 1) (yo - scale * 1) (zo + scale * 0)] -- 5
  let points := points ++ [Vec3f.mk (xo + scale * 1) (yo - scale * 1) (zo + scale * 1)] -- 6
  let points := points ++ [Vec3f.mk (xo + scale * 0) (yo - scale * 1) (zo + scale * 1)] -- 7
  (0, points)

/-- The function `draw_rect_prism` of `ar.cpp`. -/
def draw_rect_prism (points : List Vec3f) (origin : Vec3f) (w h d : ℚ) : Int × List Vec3f :=
  let xo := origin.x
  let yo := origin.y
  let zo := origin.z
  let points := points ++ [Vec3f.mk (xo + w * 0) (yo - h * 0) (zo + d * 0)] -- 0
  let points := points ++ [Vec3f.mk (xo + w * 1) (yo - h * 0) (zo + d * 0)] -- 1
  let points := points ++ [Vec3f.mk (xo + w * 1) (yo - h * 0) (zo + d * 1)] -- 2
  let points := points ++ [Vec3f.mk (xo + w * 0) (yo - h * 0) (zo + d * 1)] -- 3
  let points := points ++ [Vec3f.mk (xo + w * 0) (yo - h * 1) (zo + d * 0)] -- 4
  let points := points ++ [Vec3f.mk (xo + w * 1) (yo - h * 1) (zo + d * 0)] -- 5
  let points := points ++ [Vec3f.mk (xo + w * 1) (yo - h * 1) (zo + d * 1)] -- 6
  let points := points ++ [Vec3f.mk (xo + w * 0) (yo - h * 1) (zo + d * 1)] -- 7
  (0, points)

/-- The function `draw_roof` of `ar.cpp`; the literal `0.5` is the rational `1/2`. -/
def draw_roof (points : List Vec3f) (origin : Vec3f) (w h d : ℚ) : Int × List Vec3f :=
  let xo := origin.x
  let yo := origin.y
  let zo := origin.z
  -- back triangle
  let points := points ++ [Vec3f.mk (xo + w * 0) (yo + h * 0) (zo + d * 0)] -- 8
  let points := points ++ [Vec3f.mk (xo + w * (1 / 2)) (yo + h * 1) (zo + d * 0)] -- 9
  let points := points ++ [Vec3f.mk (xo + w * 1) (yo + h * 0) (zo + d * 0)] -- 10
  -- front triangle
  let points := points ++ [Vec3f.mk (xo + w * 0) (yo + h * 0) (zo + d * 1)] -- 11
  let points := points ++ [Vec3f.mk (xo + w * (1 / 2)) (yo + h * 1) (zo + d * 1)] -- 12
  let points := points ++ [Vec3f.mk (xo + w * 1) (yo + h * 0) (zo + d * 1)] -- 13
  (0, points)

/-- The function `draw_door` of `ar.cpp`; the literals `0.2` and `0.6` are the rationals `1/5` and `3/5`. -/
def draw_door (points : List Vec3f) (origin : Vec3f) (w h d : ℚ) : Int × List Vec3f :=
  let xo := origin.x
  let yo := origin.y
  let zo := origin.z
  -- frame
  let points := points ++ [Vec3f.mk (xo + w * 0) (yo + h * 0) (zo + d * 1)] -- 14
  let points := points ++ [Vec3f.mk (xo + w * 0) (yo + h * 1) (zo + d * 1)] -- 15
  let points := points ++ [Vec3f.mk (xo + w * 1) (yo + h * 1) (zo + d * 1)] -- 16
  let points := points ++ [Vec3f.mk (xo + w * 1) (yo + h * 0) (zo + d * 1)] -- 17
  -- knob loc
  let points := points ++ [Vec3f.mk (xo + w * (1 / 5)) (yo + h * (3 / 5)) (zo + d * 1)] -- 18
  (0, points)

/-- The `cv::Point2f` of the source. -/
structure Point2f where
  x : ℚ
  y : ℚ
deriving DecidableEq, Repr

/-- The vision-library calls used by `detect_chessboard`, over an image type `Img`. -/
structure Vision (Img : Type) where
  /-- The call `cv::findChessboardCorners(src, patsize, corner_set, CALIB_CB_FAST_CHECK)`:
  the returned flag and the corner list it writes. -/
  findChessboardCorners : Img → Size → List Point2f → Bool × List Point2f
  /-- The call `cv::cvtColor(src, gray, COLOR_RGB2GRAY)`. -/
  cvtColor : Img → Img
  /-- The call `cv::cornerSubPix(gray, corner_set, ...)`: the refined corner list. -/
  cornerSubPix : Img → List Point2f → List Point2f

/-- The function `detect_chessboard` of `ar.cpp`: the result is `(return value, corner_set, pattern_found)`. -/
def detect_chessboard {Img : Type} (cv : Vision Img) (src : Img) (patsize : Size)
    (corner_set : List Point2f) : Int × List Point2f × Bool :=
  let found := cv.findChessboardCorners src patsize corner_set
  let pattern_found := found.1
  let corner_set := found.2
  if pattern_found then
    let gray := cv.cvtColor src
    let corner_set := cv.cornerSubPix gray corner_set
    (0, corner_set, pattern_found)
  else
    (0, corner_set, pattern_found)

/-! ## `ar_main.cpp` and `gif_main.cpp`: observable events -/

/-- What a run does that can be observed: console output and library calls. -/
inductive Event where
  /-- A `printf` of a fixed text. -/
  | print (text : String)
  /-- A `printf("%.4f ", v)` of one matrix entry. -/
  | value (v : ℚ)
  /-- A call of `cv::solvePnP` with `cam_mat` and `distcoeff`, on `n` object points. -/
  | solvePnP (n : Nat)
  /-- A call of `cv::projectPoints` with `cam_mat` and `distcoeff`, on `n` points. -/
  | projectPoints (n : Nat)
  /-- A `cv::line` between `image_points[i]` and `image_points[j]`. -/
  | line (i j : Nat)
  /-- A `cv::circle` at `image_points[i]`. -/
  | circle (i : Nat)
  /-- A `cv::arrowedLine` from `image_points[i]` to `image_points[j]`. -/
  | arrowedLine (i j : Nat)
  /-- A `cv::line` between `pointmap[a]` and `pointmap[b]` (keys of the `std::map`). -/
  | mapLine (a b : Int)
  /-- A `cv::imread` of the named file. -/
  | imread (fname : String)
  /-- The `printf("Image Points ( %d )\n[", image_points.size())` of `gif_main.cpp`, with
  `n` the size printed. -/
  | printSize (n : Nat)
  /-- The `printf("(%.4f, %.4f) ", image_points[i].x, image_points[i].y)` of
  `gif_main.cpp`. -/
  | printPoint (i : Nat)
  /-- A `cv::imshow` of the frame. -/
  | imshow
  /-- A `cv::imwrite` of the frame (the `s` key). -/
  | imwrite
deriving DecidableEq, Repr

/-- How an observed run ends: `main` returned, the inputs ran out while the loop was
still going, or an element was read past the end of a matrix or vector. -/
inductive Outcome where
  | exited (code : Int)
  | running
  | undefined
deriving DecidableEq, Repr

/-- One pass of `for(int i = 0; i < rows; i++) printf("%.4f ", m.at<double>(i, 0));`
over a one-column matrix `m`; `none` when an index is not a row of `m`. -/
def print_column (m : List ℚ) (rows : Nat) : Option (List Event) :=
  (List.range rows).mapM (fun i => (m.get? i).map Event.value)

/-- The "print results" block of `ar_main.cpp` (lines 125-136) and `gif_main.cpp`
(lines 86-96): a one-column matrix is the list of its rows. -/
def print_pose (rotations translations : List ℚ) : Option (List Event) :=
  match print_column rotations rotations.length with
  | none => none
  | some rs =>
    -- the second loop runs to `translations.rows` and reads `rotations.at<double>(i, 0)`
    match print_column rotations translations.length with
    | none => none
    | some ts =>
      some ([Event.print "Rotations:\n"] ++ rs ++ [Event.print "\n\n"]
        ++ [Event.print "Translations:\n"] ++ ts ++ [Event.print "\n\n"])

/-- What the "print results" block has written when its second loop reads past the last
row of `rotations` (more translation rows than rotation rows): both headers, and every
entry of `rotations` under each. -/
def print_pose_started (rotations : List ℚ) : List Event :=
  [Event.print "Rotations:\n"] ++ rotations.map Event.value ++ [Event.print "\n\n"]
    ++ [Event.print "Translations:\n"] ++ rotations.map Event.value

/-- The two display-mode flags of `ar_main.cpp`. -/
structure Toggles where
  show_vo : Bool
  show_ext : Bool
deriving DecidableEq, Repr

/-- The key handling at the bottom of the loop of `ar_main.cpp` (lines 273-288):
the flags afterwards, whether the loop is left, and what is written. -/
def handle_key (keyEx : Char) (t : Toggles) : Toggles × Bool × List Event :=
  if keyEx = 'q' then
    (t, true, [])
  else if keyEx = 'n' then
    ({ show_vo := !t.show_vo, show_ext := false }, false, [])
  else if keyEx = 'e' then
    ({ show_ext := !t.show_ext, show_vo := false }, false, [])
  else if keyEx = 's' then
    (t, false, [Event.print "What number do you want to assign this image?\n", Event.imwrite])
  else
    (t, false, [])

/-- The house-mode points of `ar_main.cpp` (lines 138-152), for given origins and sizes. -/
def house_points_of (origin : Vec3f) (w h d : ℚ) (rooforig : Vec3f) (rw rh rd : ℚ)
    (doororig : Vec3f) (dw dh dd : ℚ) : List Vec3f :=
  let drawpoints : List Vec3f := []
  let drawpoints := (draw_rect_prism drawpoints origin w h d).2
  let drawpoints := (draw_roof drawpoints rooforig rw rh rd).2
  let drawpoints := (draw_door drawpoints doororig dw dh dd).2
  drawpoints

/-- The house-mode points with the literals of `ar_main.cpp`. -/
def house_points : List Vec3f :=
  let w : ℚ := 3
  let h : ℚ := 4
  let d : ℚ := 11 / 2
  let cenx : ℚ := 9 / 2 - (1 / 2) * w
  let ceny : ℚ := -3 + (1 / 2) * h
  let cenz : ℚ := 0
  let roofh : ℚ := 2
  house_points_of (Vec3f.mk cenx ceny cenz) w h d (Vec3f.mk cenx ceny cenz) w roofh d
    (Vec3f.mk (9 / 2 - (1 / 4) * w) (ceny - h) cenz) ((1 / 4) * w) ((1 / 4) * h) d

/-- The index pairs joined by `cv::line` for the box in house mode (lines 181-204). -/
def house_box_lines : List (Nat × Nat) :=
  [(0, 1), (1, 2), (2, 3), (3, 0), (4, 5), (5, 6), (6, 7), (7, 4),
   (0, 4), (1, 5), (2, 6), (3, 7)]

/-- The index pairs joined by `cv::line` for the roof in house mode (lines 207-224). -/
def house_roof_lines : List (Nat × Nat) :=
  [(8, 9), (9, 10), (10, 8), (11, 12), (12, 13), (13, 11), (8, 11), (9, 12), (10, 13)]

/-- The index pairs joined by `cv::line` for the door in house mode (lines 227-234). -/
def house_door_lines : List (Nat × Nat) :=
  [(14, 15), (15, 16), (16, 17), (17, 14)]

/-- The index of the door knob, drawn by `cv::circle` (line 236). -/
def house_knob : Nat := 18

/-- Every index into `image_points` that the house-mode drawing code reads, in order. -/
def house_indices : List Nat :=
  (house_box_lines ++ house_roof_lines ++ house_door_lines).flatMap (fun p => [p.1, p.2])
    ++ [house_knob]

/-- The drawing events of house mode. -/
def house_draw : List Event :=
  (house_box_lines ++ house_roof_lines ++ house_door_lines).map (fun p => Event.line p.1 p.2)
    ++ [Event.circle house_knob]

/-- The inner loop of the object-file mode (lines 250-262) for one connection `curvec`:
the state is `prev` and the lines drawn so far, each as the pair of map keys given to
`cv::line`. -/
def face_lines_loop (curvec : List Int) (first : Int) : Int × List (Int × Int) :=
  (List.range' 1 (curvec.length - 1)).foldl
    (fun st j =>
      let prev := st.1
      let current := curvec.getD j 0
      let prev := if j = 1 then curvec.getD 0 0 else prev
      if j = curvec.length - 1 then
        (prev, st.2 ++ [(current, first)])
      else
        (current, st.2 ++ [(current, prev)]))
    (-1, [])

/-- The lines drawn for one connection in the object-file mode; `none` when the
connection is empty, where `curvec[0]` reads past the end. -/
def face_lines (curvec : List Int) : Option (List (Int × Int)) :=
  match curvec with
  | [] => none
  | first :: _ => some (face_lines_loop curvec first).2

/-- The lines drawn for all connections in the object-file mode (lines 246-263). -/
def ext_lines (connections : List (List Int)) : Option (List (Int × Int)) :=
  (connections.mapM face_lines).map List.flatten

/-- The lines drawn in the object-file mode before an empty connection is met (where
`curvec[0]` reads past the end): those of the connections ahead of it. -/
def ext_lines_started : List (List Int) → List (Int × Int)
  | [] => []
  | curvec :: rest =>
    match face_lines curvec with
    | none => []
    | some ls => ls ++ ext_lines_started rest

/-- The points of the object-file mode (lines 154-164); `objpoints` lists the vertices
of keys `1 .. size` of the `std::map` in key order. -/
def ext_points (objpoints : List Vec3f) : List Vec3f :=
  let cenx : ℚ := 9 / 2
  let ceny : ℚ := -3
  let cenz : ℚ := 1
  objpoints.foldl
    (fun drawpoints o => drawpoints ++ [Vec3f.mk (cenx + o.x) (ceny + o.y) (cenz + o.z)]) []

/-- What one iteration of the capture loop receives from the camera, the vision
library and the keyboard. -/
structure Frame where
  /-- The value of `frame.empty()`. -/
  empty : Bool
  /-- The flag set by `detect_chessboard`. -/
  patternfound : Bool
  /-- The rotation vector written by `cv::solvePnP`, one entry per row. -/
  rotations : List ℚ
  /-- The translation vector written by `cv::solvePnP`, one entry per row. -/
  translations : List ℚ
  /-- The key returned by `cv::waitKeyEx(10)`, as stored in `char keyEx`. -/
  key : Char
deriving DecidableEq, Repr

/-- What a run of a main program receives from outside. -/
structure Env where
  /-- The value of `capdev->isOpened()`. -/
  opened : Bool
  /-- The return value of `read_calibration_data_csv`. -/
  calib_ret : Int
  /-- The vertices read by `read_vo_data_obj`, in key order. -/
  objpoints : List Vec3f
  /-- The connections read by `read_vo_data_obj`. -/
  connections : List (List Int)
  /-- The successive inputs of the capture loop. -/
  frames : List Frame

/-- The pattern size `cv::Size patternsize(9, 6)` of both main programs. -/
def patternsize : Size := { width := 9, height := 6 }

/-- The body of `if(patternfound) { ... }` in `ar_main.cpp` (lines 120-269): the events,
and whether the block ran to its end (`false`: it read past the end of a matrix or
vector, after the events given). -/
def ar_found_block (objpoints : List Vec3f) (connections : List (List Int)) (t : Toggles)
    (f : Frame) : List Event × Bool :=
  let point_set := (get_point_set patternsize []).2
  let start := [Event.print "pattern found\n", Event.solvePnP point_set.length]
  match print_pose f.rotations f.translations with
  | none => (start ++ print_pose_started f.rotations, false)
  | some pose =>
    let drawpoints : List Vec3f :=
      if t.show_vo then house_points
      else if t.show_ext then ext_points objpoints
      else (draw_axes [] (Vec3f.mk 0 0 0) 1).2
    let pre := start ++ pose ++ [Event.projectPoints drawpoints.length]
    if t.show_vo then
      (pre ++ house_draw, true)
    else if t.show_ext then
      match ext_lines connections with
      | none =>
        (pre ++ (ext_lines_started connections).map (fun p => Event.mapLine p.1 p.2), false)
      | some ls => (pre ++ ls.map (fun p => Event.mapLine p.1 p.2), true)
    else
      (pre ++ [Event.arrowedLine 0 1, Event.arrowedLine 0 2, Event.arrowedLine 0 3], true)

/-- The capture loop `for(;;) { ... }` of `ar_main.cpp` (lines 101-289) over the given
frames, with the data read from the object file: the events, how the loop ended, and
the flags at that point. -/
def ar_loop (objpoints : List Vec3f) (connections : List (List Int)) :
    List Frame → Toggles → List Event × Outcome × Toggles
  | [], t => ([], Outcome.running, t)
  | f :: rest, t =>
    if f.empty then
      ([Event.print "frame is empty\n", Event.print "Bye!\n"], Outcome.exited 0, t)
    else
      let b := if f.patternfound then ar_found_block objpoints connections t f else ([], true)
      if b.2 then
        let k := handle_key f.key t
        if k.2.1 then
          (b.1 ++ [Event.imshow] ++ k.2.2 ++ [Event.print "Bye!\n"], Outcome.exited 0, k.1)
        else
          let r := ar_loop objpoints connections rest k.1
          (b.1 ++ [Event.imshow] ++ k.2.2 ++ r.1, r.2.1, r.2.2)
      else
        (b.1, Outcome.undefined, t)

/-- The program `main` of `ar_main.cpp`; the listings of the calibration data and of the
object file are not part of the trace. -/
def ar_main (env : Env) : List Event × Outcome :=
  if !env.opened then
    ([Event.print "Unable to open video device\n"], Outcome.exited (-1))
  else
    -- read_calibration_data_csv("calibration.csv", cam_mat, distcoeff, 0); result not read
    let r := ar_loop env.objpoints env.connections env.frames
      { show_vo := false, show_ext := false }
    (r.1, r.2.1)

/-- The body of `if(patternfound) { ... }` in `gif_main.cpp` (lines 82-150): the events,
whether the block ran to its end (`false`: it read past the end of a matrix, after the
events given), and the value of `kermitcount` afterwards. -/
def gif_found_block (kermitcount : Int) (f : Frame) : List Event × Bool × Int :=
  let point_set := (get_point_set patternsize []).2
  let start := [Event.solvePnP point_set.length]
  match print_pose f.rotations f.translations with
  | none => (start ++ print_pose_started f.rotations, false, kermitcount)
  | some pose =>
    let drawpoints : List Vec3f :=
      [Vec3f.mk 0 0 0, Vec3f.mk 9 0 0, Vec3f.mk 9 (-6) 0, Vec3f.mk 0 (-6) 0]
    -- `cv::projectPoints` gives one image point for each of the `drawpoints`
    let image_points_size := drawpoints.length
    let listing := [Event.printSize image_points_size]
      ++ (List.range image_points_size).map Event.printPoint ++ [Event.print "\x08]\n\n"]
    let fname := "kerm/input-" ++ toString kermitcount ++ ".png"
    let kermitcount := kermitcount + 1
    let kermitcount := if kermitcount > 18 then 0 else kermitcount
    (start ++ pose ++ [Event.projectPoints drawpoints.length] ++ listing
      ++ [Event.imread fname], true, kermitcount)

/-- The capture loop of `gif_main.cpp` (lines 64-158): the events, how the loop ended,
and `kermitcount` at that point. -/
def gif_loop : List Frame → Int → List Event × Outcome × Int
  | [], c => ([], Outcome.running, c)
  | f :: rest, c =>
    if f.empty then
      ([Event.print "frame is empty\n", Event.print "Bye!\n"], Outcome.exited 0, c)
    else
      let b := if f.patternfound then gif_found_block c f else ([], true, c)
      if b.2.1 then
        if f.key = 'q' then
          (b.1 ++ [Event.imshow] ++ [Event.print "Bye!\n"], Outcome.exited 0, b.2.2)
        else
          let r := gif_loop rest b.2.2
          (b.1 ++ [Event.imshow] ++ r.1, r.2.1, r.2.2)
      else
        (b.1, Outcome.undefined, c)

/-- The program `main` of `gif_main.cpp`; the listing of the calibration data is not
part of the trace. -/
def gif_main (env : Env) : List Event × Outcome :=
  if !env.opened then
    ([Event.print "Unable to open kermit.gif\n"], Outcome.exited (-1))
  else
    -- read_calibration_data_csv("calibration.csv", cam_mat, distcoeff, 0); result not read
    let r := gif_loop env.frames 0
    (r.1, r.2.1)

/-- A run in which the calibration file cannot be read (`read_calibration_data_csv`
returns -1), the camera delivers one frame showing the chessboard, and `q` is pressed. -/
def failed_calibration_env : Env :=
  { opened := true
    calib_ret := -1
    objpoints := []
    connections := []
    frames := [{ empty := false, patternfound := true, rotations := [1, 2, 3],
                 translations := [4, 5, 6], key := 'q' }] }

/-- The frames of a run in which no chessboard is seen and the given keys are pressed,
one per frame. -/
def key_frames (keys : List Char) : List Frame :=
  keys.map (fun k =>
    { empty := false, patternfound := false, rotations := [], translations := [], key := k })

/-- The order in which `draw_rect_prism` pushes the box corners, read off the names
`p000, p100, p101, p001, p010, p110, p111, p011` of the source: `(a, b, c)` are the
multiples of the width, height and depth. -/
def prism_order : List (Nat × Nat × Nat) :=
  [(0, 0, 0), (1, 0, 0), (1, 0, 1), (0, 0, 1), (0, 1, 0), (1, 1, 0), (1, 1, 1), (0, 1, 1)]

/-- The corner `(xo + a*w, yo - b*h, zo + c*d)` of the box at `origin`. -/
def prism_corner (origin : Vec3f) (w h d : ℚ) (t : Nat × Nat × Nat) : Vec3f :=
  Vec3f.mk (origin.x + (t.1 : ℚ) * w) (origin.y - (t.2.1 : ℚ) * h) (origin.z + (t.2.2 : ℚ) * d)

/-- The name of the overlay image read by `gif_main.cpp` (line 113) for a value of
`kermitcount`. -/
def kermit_file (kermitcount : Int) : String :=
  "kerm/input-" ++ toString kermitcount ++ ".png"

/-- The names of the files read by `cv::imread` in a trace, in order. -/
def imread_names (evs : List Event) : List String :=
  evs.filterMap (fun e => match e with
    | Event.imread fname => some fname
    | _ => none)

/-- A run of `n` frames that all show the chessboard, with no key that ends the loop. -/
def found_frames (n : Nat) : List Frame :=
  List.replicate n
    { empty := false, patternfound := true, rotations := [1, 2, 3],
      translations := [4, 5, 6], key := 'n' }

/-- The number of positions in which two corner labels `(a, b, c)` differ. -/
def differ_count (s t : Nat × Nat × Nat) : Nat :=
  (if s.1 = t.1 then 0 else 1) + (if s.2.1 = t.2.1 then 0 else 1)
    + (if s.2.2 = t.2.2 then 0 else 1)

/-- An index pair without its direction: smaller index first. -/
def unordered (p : Nat × Nat) : Nat × Nat :=
  (min p.1 p.2, max p.1 p.2)

/-- The rows `0 .. h-1` of a `w`-column grid of values `g i j`, row-major. -/
def gridRows {α : Type} (g : Nat → Nat → α) (w : Nat) : Nat → List α
  | 0 => []
  | h + 1 => gridRows g w h ++ (List.range w).map (g h)

/-! ## Lemmas for the `int` to `float` store -/

theorem float_exp_small (fuel a : Nat) (h : a < 2 ^ 24) : float_exp fuel a = 0 := by
  cases fuel with
  | zero => rfl
  | succ k => simp only [float_exp, h, if_true]

theorem float_exp_two_pow : float_exp 104 (2 ^ 24) = 1 := by decide

theorem float_exp_16777217 : float_exp 104 16777217 = 1 := by decide

/-- An `int` of magnitude at most `2^24` is stored in a `float` without rounding. -/
theorem float_of_int_exact (n : Int) (h : n.natAbs ≤ 2 ^ 24) : float_of_int n = (n : ℚ) := by
  rcases Nat.lt_or_ge n.natAbs (2 ^ 24) with hlt | hge
  · have he : float_exp 104 n.natAbs = 0 := float_exp_small _ _ hlt
    simp only [float_of_int, he, pow_zero, Nat.div_one, Nat.mod_one, Nat.mul_zero, Nat.mul_one]
    have : ¬ ((0 : Nat) > 1 ∨ ((0 : Nat) = 1 ∧ n.natAbs % 2 = 1)) := by omega
    rw [if_neg this, Int.sign_mul_natAbs]
  · have heq : n.natAbs = 2 ^ 24 := le_antisymm h hge
    have hq : (if 2 * (2 ^ 24 % 2 ^ 1) > 2 ^ 1 ∨
        (2 * (2 ^ 24 % 2 ^ 1) = 2 ^ 1 ∧ 2 ^ 24 / 2 ^ 1 % 2 = 1)
        then 2 ^ 24 / 2 ^ 1 + 1 else 2 ^ 24 / 2 ^ 1) * 2 ^ 1 = 2 ^ 24 := by decide
    simp only [float_of_int, heq, float_exp_two_pow, hq]
    rw [← heq, Int.sign_mul_natAbs]

/-- The `int` `2^24 + 1` is stored as the `float` `2^24`. -/
theorem float_of_int_16777217 : float_of_int 16777217 = 16777216 := by
  have hn : (16777217 : Int).natAbs = 16777217 := rfl
  have hs : Int.sign 16777217 = 1 := rfl
  have hq : (if 2 * (16777217 % 2 ^ 1) > 2 ^ 1 ∨
      (2 * (16777217 % 2 ^ 1) = 2 ^ 1 ∧ 16777217 / 2 ^ 1 % 2 = 1)
      then 16777217 / 2 ^ 1 + 1 else 16777217 / 2 ^ 1) * 2 ^ 1 = 16777216 := by decide
  simp only [float_of_int, hn, hs, float_exp_16777217, hq]
  norm_num

theorem float_of_int_zero : float_of_int 0 = 0 := by
  simpa using float_of_int_exact 0 (by decide)

/-! ## Loop lemmas for `get_point_set` -/

theorem foldl_push_range {α : Type} (g : Nat → α) (w : Nat) (ps : List α) :
    (List.range w).foldl (fun ps j => ps ++ [g j]) ps = ps ++ (List.range w).map g := by
  induction w with
  | zero => simp
  | succ n ih =>
    rw [List.range_succ, List.foldl_append, ih]
    simp

theorem foldl_rows_range {α : Type} (g : Nat → Nat → α) (w h : Nat) (ps : List α) :
    (List.range h).foldl
      (fun ps i => (List.range w).foldl (fun ps j => ps ++ [g i j]) ps) ps
      = ps ++ gridRows g w h := by
  induction h with
  | zero => simp [gridRows]
  | succ n ih =>
    rw [List.range_succ, List.foldl_append, ih]
    simp [gridRows, foldl_push_range]

theorem gridRows_length {α : Type} (g : Nat → Nat → α) (w h : Nat) :
    (gridRows g w h).length = h * w := by
  induction h with
  | zero => simp [gridRows]
  | succ n ih => simp [gridRows, ih, Nat.succ_mul]

theorem gridRows_getElem? {α : Type} (g : Nat → Nat → α) (w h i j : Nat)
    (hi : i < h) (hj : j < w) :
    (gridRows g w h)[i * w + j]? = some (g i j) := by
  induction h with
  | zero => omega
  | succ n ih =>
    simp only [gridRows]
    by_cases hin : i < n
    · have hlt : i * w + j < (gridRows g w n).length := by
        rw [gridRows_length]
        calc i * w + j < i * w + w := by omega
          _ = (i + 1) * w := by rw [Nat.succ_mul]
          _ ≤ n * w := Nat.mul_le_mul_right w hin
      rw [List.getElem?_append_left hlt]
      exact ih hin
    · have hi' : i = n := by omega
      subst hi'
      have hge : (gridRows g w i).length ≤ i * w + j := by
        rw [gridRows_length]; omega
      rw [List.getElem?_append_right hge, gridRows_length]
      simp [hj]

theorem get_point_set_eq (pat_size : Size) (L : List Vec3f) :
    get_point_set pat_size L
      = (0, L ++ gridRows get_point_set_point pat_size.width.toNat pat_size.height.toNat) := by
  simp [get_point_set, foldl_rows_range]

theorem get_point_set_first_row (w j : Nat) (hj : j < w) :
    (get_point_set (Size.mk (w : Int) 1) []).2[j]? = some (get_point_set_point 0 j) := by
  rw [get_point_set_eq]
  have h := gridRows_getElem? get_point_set_point w 1 0 j Nat.zero_lt_one hj
  simpa using h

/-! ## Lemmas for the main programs -/

theorem print_column_take (m : List ℚ) (rows : Nat) (h : rows ≤ m.length) :
    print_column m rows = some ((m.take rows).map Event.value) := by
  induction rows with
  | zero => simp only [print_column, List.range_zero, List.mapM_nil]; rfl
  | succ n ih =>
    have ih' := ih (by omega)
    unfold print_column at ih' ⊢
    have hn : n < m.length := by omega
    rw [List.range_succ, List.mapM_append, ih', List.mapM_cons, List.mapM_nil,
      List.get?_eq_getElem?, List.getElem?_eq_getElem hn, List.take_succ,
      List.getElem?_eq_getElem hn]
    simp only [Option.map_some', Option.toList_some, List.map_append, List.map_cons,
      List.map_nil]
    rfl

/-- What the "print results" block writes when the translation vector has no more rows
than the rotation vector: under both headers, entries of `rotations`. -/
theorem print_pose_eq (r t : List ℚ) (h : t.length ≤ r.length) :
    print_pose r t
      = some ([Event.print "Rotations:\n"] ++ r.map Event.value ++ [Event.print "\n\n"]
          ++ [Event.print "Translations:\n"] ++ (r.take t.length).map Event.value
          ++ [Event.print "\n\n"]) := by
  simp only [print_pose, print_column_take r r.length (le_refl _), print_column_take r _ h,
    List.take_length]

theorem point_set_length : (get_point_set patternsize []).2.length = 54 := by
  simp [get_point_set_eq, gridRows_length, patternsize]

theorem handle_key_exclusive (k : Char) (t : Toggles)
    (h : ¬ (t.show_vo = true ∧ t.show_ext = true)) :
    ¬ ((handle_key k t).1.show_vo = true ∧ (handle_key k t).1.show_ext = true) := by
  unfold handle_key
  split_ifs <;> simp_all

theorem ar_loop_exclusive (objpoints : List Vec3f) (connections : List (List Int))
    (frames : List Frame) (t : Toggles) (h : ¬ (t.show_vo = true ∧ t.show_ext = true)) :
    ¬ ((ar_loop objpoints connections frames t).2.2.show_vo = true ∧
       (ar_loop objpoints connections frames t).2.2.show_ext = true) := by
  induction frames generalizing t with
  | nil => simpa [ar_loop] using h
  | cons f rest ih =>
    rw [ar_loop]
    by_cases he : f.empty = true
    · simpa [he] using h
    · simp only [he, Bool.false_eq_true, if_false]
      by_cases hb : (if f.patternfound = true then ar_found_block objpoints connections t f
          else ([], true)).2 = true
      · simp only [hb, if_true]
        by_cases hk : (handle_key f.key t).2.1 = true
        · simp only [hk, if_true]
          exact handle_key_exclusive f.key t h
        · simp only [hk, if_false]
          exact ih _ (handle_key_exclusive f.key t h)
      · simp only [hb, if_false]
        exact h

theorem face_lines_loop_length (curvec : List Int) (first : Int) :
    (face_lines_loop curvec first).2.length = curvec.length - 1 := by
  unfold face_lines_loop
  have key : ∀ (l : List Nat) (st : Int × List (Int × Int)),
      (l.foldl
        (fun st j =>
          let prev := st.1
          let current := curvec.getD j 0
          let prev := if j = 1 then curvec.getD 0 0 else prev
          if j = curvec.length - 1 then
            (prev, st.2 ++ [(current, first)])
          else
            (current, st.2 ++ [(current, prev)])) st).2.length = st.2.length + l.length := by
    intro l
    induction l with
    | nil => intro st; simp
    | cons j js ih =>
      intro st
      rw [List.foldl_cons, ih]
      by_cases hj : j = curvec.length - 1 <;> simp [hj] <;> omega
  rw [key]
  simp

theorem ar_found_block_starts (objpoints : List Vec3f) (connections : List (List Int))
    (t : Toggles) (f : Frame) :
    ∃ tl : List Event, (ar_found_block objpoints connections t f).1
      = Event.print "pattern found\n" :: Event.solvePnP 54 :: tl := by
  unfold ar_found_block
  simp only [point_set_length]
  cases print_pose f.rotations f.translations with
  | none => exact ⟨_, rfl⟩
  | some pose =>
    simp only []
    split_ifs
    · exact ⟨_, rfl⟩
    · cases ext_lines connections <;> exact ⟨_, rfl⟩
    · exact ⟨_, rfl⟩

theorem gif_found_block_starts (c : Int) (f : Frame) :
    ∃ tl : List Event, (gif_found_block c f).1 = Event.solvePnP 54 :: tl := by
  unfold gif_found_block
  simp only [point_set_length]
  cases print_pose f.rotations f.translations <;> exact ⟨_, rfl⟩

/-! ## Lemmas for the overlay counter of `gif_main.cpp` -/

theorem print_column_none (m : List ℚ) (rows : Nat) (h : m.length < rows) :
    print_column m rows = none := by
  induction rows with
  | zero => omega
  | succ n ih =>
    unfold print_column at ih ⊢
    rw [List.range_succ, List.mapM_append]
    by_cases hn : m.length < n
    · rw [ih hn]; rfl
    · have hn' : n = m.length := by omega
      subst hn'
      have hpre := print_column_take m m.length (le_refl _)
      unfold print_column at hpre
      rw [hpre, List.mapM_cons, List.get?_eq_getElem?,
        List.getElem?_eq_none (le_refl _)]
      rfl

theorem imread_names_append (l₁ l₂ : List Event) :
    imread_names (l₁ ++ l₂) = imread_names l₁ ++ imread_names l₂ := by
  simp [imread_names, List.filterMap_append]

theorem imread_names_values (l : List ℚ) : imread_names (l.map Event.value) = [] := by
  induction l with
  | nil => rfl
  | cons a l ih =>
    simp only [imread_names, List.map_cons, List.filterMap_cons] at ih ⊢
    exact ih

theorem imread_names_points (l : List Nat) : imread_names (l.map Event.printPoint) = [] := by
  induction l with
  | nil => rfl
  | cons a l ih =>
    simp only [imread_names, List.map_cons, List.filterMap_cons] at ih ⊢
    exact ih

theorem imread_names_print_pose_started (r : List ℚ) :
    imread_names (print_pose_started r) = [] := by
  simp only [print_pose_started, imread_names_append, imread_names_values]
  rfl

theorem imread_names_print_pose (r t : List ℚ) (pose : List Event)
    (h : print_pose r t = some pose) : imread_names pose = [] := by
  by_cases hle : t.length ≤ r.length
  · rw [print_pose_eq r t hle] at h
    cases h
    simp only [imread_names_append, imread_names_values]
    rfl
  · have hnone : print_column r t.length = none := print_column_none r _ (by omega)
    simp [print_pose, print_column_take r r.length (le_refl _), hnone] at h

theorem kermit_step (c : Nat) (hc : c ≤ 18) :
    (if (c : Int) + 1 > 18 then (0 : Int) else (c : Int) + 1) = (((c + 1) % 19 : Nat) : Int) := by
  split_ifs <;> omega

theorem gif_found_block_some (c : Nat) (hc : c ≤ 18) (f : Frame) (pose : List Event)
    (hp : print_pose f.rotations f.translations = some pose) :
    gif_found_block c f
      = ([Event.solvePnP 54] ++ pose ++ [Event.projectPoints 4]
          ++ ([Event.printSize 4] ++ (List.range 4).map Event.printPoint
              ++ [Event.print "\x08]\n\n"])
          ++ [Event.imread (kermit_file c)], true, (((c + 1) % 19 : Nat) : Int)) := by
  simp only [gif_found_block, hp, point_set_length, kermit_step c hc]
  rfl

theorem gif_found_block_none (c : Int) (f : Frame)
    (hp : print_pose f.rotations f.translations = none) :
    gif_found_block c f
      = ([Event.solvePnP 54] ++ print_pose_started f.rotations, false, c) := by
  simp only [gif_found_block, hp, point_set_length]

theorem imread_names_found (c : Int) (pose tl : List Event) (hpose : imread_names pose = []) :
    imread_names ([Event.solvePnP 54] ++ pose ++ [Event.projectPoints 4]
        ++ ([Event.printSize 4] ++ (List.range 4).map Event.printPoint
            ++ [Event.print "\x08]\n\n"])
        ++ [Event.imread (kermit_file c)] ++ [Event.imshow] ++ tl)
      = kermit_file c :: imread_names tl := by
  simp only [imread_names_append, imread_names_points, hpose]
  rfl

theorem gif_loop_reads_aux (frames : List Frame) (c : Nat) (hc : c ≤ 18) :
    ∃ m : Nat,
      imread_names (gif_loop frames c).1
        = (List.range m).map (fun k => kermit_file (((c + k) % 19 : Nat) : Int)) ∧
      (gif_loop frames c).2.2 = (((c + m) % 19 : Nat) : Int) := by
  induction frames generalizing c with
  | nil =>
    refine ⟨0, by simp [gif_loop, imread_names], ?_⟩
    simp only [gif_loop]
    omega
  | cons f rest ih =>
    have stop : ∃ m : Nat,
        ([] : List String)
          = (List.range m).map (fun k => kermit_file (((c + k) % 19 : Nat) : Int)) ∧
        (c : Int) = (((c + m) % 19 : Nat) : Int) :=
      ⟨0, by simp, by omega⟩
    rw [gif_loop]
    by_cases he : f.empty = true
    · simp only [he, if_true]
      simpa [imread_names] using stop
    · simp only [he, Bool.false_eq_true, if_false]
      by_cases hf : f.patternfound = true
      · simp only [hf, if_true]
        cases hp : print_pose f.rotations f.translations with
        | none =>
          rw [gif_found_block_none c f hp]
          simp only [Bool.false_eq_true, if_false, imread_names_append,
            imread_names_print_pose_started]
          simpa [imread_names] using stop
        | some pose =>
          rw [gif_found_block_some c hc f pose hp]
          have hpose := imread_names_print_pose _ _ _ hp
          have hc0 : c % 19 = c := Nat.mod_eq_of_lt (by omega)
          simp only [if_true]
          by_cases hq : f.key = 'q'
          · simp only [hq, if_true]
            refine ⟨1, ?_, ?_⟩
            · rw [imread_names_found c pose _ hpose, show List.range 1 = [0] from rfl]
              simp only [List.map_cons, List.map_nil, Nat.add_zero, hc0]
              rfl
            · rfl
          · simp only [hq, if_false]
            obtain ⟨m, h1, h2⟩ := ih ((c + 1) % 19) (by omega)
            refine ⟨m + 1, ?_, ?_⟩
            · rw [imread_names_found c pose _ hpose, h1, List.range_succ_eq_map,
                List.map_cons, List.map_map]
              simp only [Nat.add_zero, hc0, List.cons.injEq, true_and]
              apply List.map_congr_left
              intro k _
              have hk : ((c + 1) % 19 + k) % 19 = (c + (k + 1)) % 19 := by omega
              simp [hk]
            · rw [h2]
              have hk : ((c + 1) % 19 + m) % 19 = (c + (m + 1)) % 19 := by omega
              rw [hk]
      · simp only [hf, Bool.false_eq_true, if_false, if_true]
        by_cases hq : f.key = 'q'
        · simp only [hq, if_true]
          simpa [imread_names] using stop
        · simp only [hq, if_false]
          obtain ⟨m, h1, h2⟩ := ih c hc
          refine ⟨m, ?_, h2⟩
          rw [← h1]
          simp [imread_names]

theorem gif_loop_count (frames : List Frame) (c : Nat) (hc : c ≤ 18)
    (hall : ∀ f ∈ frames, f.empty = false ∧ f.key ≠ 'q' ∧
      f.translations.length ≤ f.rotations.length) :
    (imread_names (gif_loop frames c).1).length
      = frames.countP (fun f => f.patternfound) := by
  induction frames generalizing c with
  | nil => simp [gif_loop, imread_names]
  | cons f rest ih =>
    obtain ⟨he, hq, hpose⟩ := hall f (List.mem_cons_self _ _)
    have hrest : ∀ g ∈ rest, g.empty = false ∧ g.key ≠ 'q' ∧
        g.translations.length ≤ g.rotations.length :=
      fun g hg => hall g (List.mem_cons_of_mem _ hg)
    rw [gif_loop]
    simp only [he, Bool.false_eq_true, if_false, hq]
    by_cases hf : f.patternfound = true
    · simp only [hf, if_true]
      rw [gif_found_block_some c hc f _ (print_pose_eq _ _ hpose)]
      simp only [if_true]
      have hp := imread_names_print_pose _ _ _ (print_pose_eq _ _ hpose)
      have ih' := ih ((c + 1) % 19) (by omega) hrest
      rw [List.countP_cons_of_pos _ _ hf, ← ih', imread_names_found c _ _ hp]
      simp
    · simp only [hf, Bool.false_eq_true, if_false, if_true]
      rw [List.countP_cons_of_neg _ _ hf, ← ih c hc hrest]
      simp [imread_names]

/-! ## Geometry generation -/

/-- C1 as stated fails: for the pattern of width `2^24 + 2` and height 1 the point
appended at position `0 * w + j` with `j = 2^24 + 1` is `(2^24, 0, 0)`, the column index
rounded to a `float`, not `(j, -0, 0)`. -/
theorem get_point_set_rounds_wide_pattern :
    (get_point_set (Size.mk 16777218 1) []).2[16777217]?
      = some (Vec3f.mk 16777216 0 0) ∧
    (get_point_set (Size.mk 16777218 1) []).2[16777217]?
      ≠ some (Vec3f.mk 16777217 (-0) 0) := by
  have hlt : 16777217 < 16777218 := Nat.lt_succ_self 16777217
  have hget : (get_point_set (Size.mk 16777218 1) []).2[16777217]?
      = some (get_point_set_point 0 16777217) :=
    get_point_set_first_row 16777218 16777217 hlt
  have hpt : get_point_set_point 0 16777217 = Vec3f.mk 16777216 0 0 := by
    have hneg : (-((0 : Nat) : Int)) = 0 := rfl
    have hj : ((16777217 : Nat) : Int) = 16777217 := rfl
    simp only [get_point_set_point, hneg, hj, float_of_int_16777217, float_of_int_zero]
  rw [hpt] at hget
  refine ⟨hget, ?_⟩
  rw [hget]
  intro h
  have hx := congrArg Vec3f.x (Option.some.inj h)
  norm_num at hx

/-- C1, amended: for a pattern of width `w ≥ 0` and height `h ≥ 0` and any initial list
`L`, `get_point_set` returns 0, keeps `L` as the beginning of the list, appends exactly
`h * w` points, and the appended point number `i * w + j` is `(float(j), float(-i), 0)`,
the indices stored as `float`s; it is exactly `(j, -i, 0)` when `i ≤ 2^24` and
`j ≤ 2^24`. -/
theorem get_point_set_spec (w h : Int) (hw : 0 ≤ w) (hh : 0 ≤ h) (L : List Vec3f) :
    (get_point_set (Size.mk w h) L).1 = 0 ∧
    (get_point_set (Size.mk w h) L).2.take L.length = L ∧
    ((get_point_set (Size.mk w h) L).2.length : Int) = (L.length : Int) + h * w ∧
    (∀ i j : Nat, (i : Int) < h → (j : Int) < w →
      (get_point_set (Size.mk w h) L).2[L.length + (i * w.toNat + j)]?
        = some (Vec3f.mk (float_of_int j) (float_of_int (-(i : Int))) 0)) ∧
    (∀ i j : Nat, (i : Int) < h → (j : Int) < w → i ≤ 2 ^ 24 → j ≤ 2 ^ 24 →
      (get_point_set (Size.mk w h) L).2[L.length + (i * w.toNat + j)]?
        = some (Vec3f.mk (j : ℚ) (-(i : ℚ)) 0)) := by
  rw [get_point_set_eq]
  have hpt : ∀ i j : Nat, (i : Int) < h → (j : Int) < w →
      (L ++ gridRows get_point_set_point (Size.mk w h).width.toNat
          (Size.mk w h).height.toNat)[L.length + (i * w.toNat + j)]?
        = some (Vec3f.mk (float_of_int j) (float_of_int (-(i : Int))) 0) := by
    intro i j hi hj
    have hi' : i < h.toNat := by omega
    have hj' : j < w.toNat := by omega
    simp only [Size.width, Size.height]
    rw [List.getElem?_append_right (by omega)]
    have hidx : L.length + (i * w.toNat + j) - L.length = i * w.toNat + j := by omega
    rw [hidx, gridRows_getElem? _ _ _ _ _ hi' hj']
    simp only [get_point_set_point, float_of_int_zero]
  refine ⟨rfl, ?_, ?_, hpt, ?_⟩
  · simp
  · simp only [List.length_append, gridRows_length, Nat.cast_add, Nat.cast_mul]
    rw [Int.toNat_of_nonneg hw, Int.toNat_of_nonneg hh]
  · intro i j hi hj hi24 hj24
    rw [hpt i j hi hj, float_of_int_exact (j : Int) (by simpa using hj24),
      float_of_int_exact (-(i : Int)) (by simpa using hi24)]
    simp

/-- The amended claim C1 at the pattern of the main programs (9 by 6) and an empty list:
54 points, the one in row 5 and column 8 being `(8, -5, 0)`. -/
theorem get_point_set_spec_witness :
    ((get_point_set (Size.mk 9 6) []).2.length : Int) = (([] : List Vec3f).length : Int) + 6 * 9 ∧
    (get_point_set (Size.mk 9 6) []).2[([] : List Vec3f).length + (5 * (9 : Int).toNat + 8)]?
      = some (Vec3f.mk ((8 : Nat) : ℚ) (-((5 : Nat) : ℚ)) 0) :=
  have h := get_point_set_spec 9 6 (by decide) (by decide) []
  ⟨h.2.2.1, h.2.2.2.2 5 8 (by decide) (by decide) (by decide) (by decide)⟩

/-- C2: `draw_rect_prism` returns 0 and appends exactly 8 points after the unchanged
earlier entries; they are the corners `(xo + a*w, yo - b*h, zo + c*d)` taken in the
order `prism_order`, which lists every `(a, b, c)` with `a, b, c ∈ {0, 1}` once; when
`w`, `h` and `d` are all non-zero the 8 points are pairwise distinct. -/
theorem draw_rect_prism_spec (L : List Vec3f) (o : Vec3f) (w h d : ℚ) :
    (draw_rect_prism L o w h d).1 = 0 ∧
    (draw_rect_prism L o w h d).2 = L ++ prism_order.map (prism_corner o w h d) ∧
    (draw_rect_prism L o w h d).2.length = L.length + 8 ∧
    (draw_rect_prism L o w h d).2.take L.length = L ∧
    prism_order.Nodup ∧
    (∀ a b c : Nat, a < 2 → b < 2 → c < 2 → (a, b, c) ∈ prism_order) ∧
    (w ≠ 0 → h ≠ 0 → d ≠ 0 → (prism_order.map (prism_corner o w h d)).Nodup) := by
  have heq : (draw_rect_prism L o w h d).2 = L ++ prism_order.map (prism_corner o w h d) := by
    simp [draw_rect_prism, prism_order, prism_corner]
  refine ⟨rfl, heq, ?_, ?_, by decide, ?_, ?_⟩
  · rw [heq]; simp [prism_order]
  · rw [heq]; simp
  · intro a b c ha hb hc
    interval_cases a <;> interval_cases b <;> interval_cases c <;> decide
  · intro hw hh hd
    have hy : ¬ o.y = o.y - h := fun e => hh (by linarith)
    simp [prism_order, prism_corner, hw, hh, hd, hy]

/-- The claim C2 at the box of the house mode: origin `(3, -1, 0)`, sizes 3, 4, 11/2. -/
theorem draw_rect_prism_spec_witness :
    (prism_order.map (prism_corner (Vec3f.mk 3 (-1) 0) 3 4 (11 / 2))).Nodup :=
  (draw_rect_prism_spec [] (Vec3f.mk 3 (-1) 0) 3 4 (11 / 2)).2.2.2.2.2.2
    (by norm_num) (by norm_num) (by norm_num)

/-- C3: `draw_cube` with scale `s` produces the same list and the same return value as
`draw_rect_prism` with width, height and depth all equal to `s`. -/
theorem draw_cube_eq_draw_rect_prism (points : List Vec3f) (origin : Vec3f) (s : ℚ) :
    draw_cube points origin s = draw_rect_prism points origin s s s := rfl

/-- C4: `draw_axes` does not use its origin and scale: for every list, origin and scale it
appends `(0,0,0), (0,0,1), (1,0,0), (0,1,0)`; at origin `(1, 2, 3)` and scale 2 these are
not the points `o, o + s*(0,0,1), o + s*(1,0,0), o + s*(0,1,0)`. -/
theorem draw_axes_ignores_origin_and_scale :
    (∀ (points : List Vec3f) (o : Vec3f) (s : ℚ),
      draw_axes points o s
        = (0, points ++ [Vec3f.mk 0 0 0, Vec3f.mk 0 0 1, Vec3f.mk 1 0 0, Vec3f.mk 0 1 0])) ∧
    (draw_axes [] (Vec3f.mk 1 2 3) 2).2
      ≠ [Vec3f.mk 1 2 3, Vec3f.mk 1 2 (3 + 2 * 1), Vec3f.mk (1 + 2 * 1) 2 3,
         Vec3f.mk 1 (2 + 2 * 1) 3] := by
  refine ⟨fun points o s => by simp [draw_axes], ?_⟩
  simp [draw_axes]

/-- C5: `detect_chessboard` returns 0 on every input, also when the pattern is not found:
with a library that reports no chessboard, `pattern_found` is false and the return value
is 0. -/
theorem detect_chessboard_always_returns_zero :
    (∀ (Img : Type) (cv : Vision Img) (src : Img) (patsize : Size) (cs : List Point2f),
      (detect_chessboard cv src patsize cs).1 = 0 ∧
      (detect_chessboard cv src patsize cs).2.2 = (cv.findChessboardCorners src patsize cs).1) ∧
    (detect_chessboard
        (Vision.mk (fun (_ : Unit) _ cs => (false, cs)) (fun g => g) (fun _ cs => cs))
        () patternsize []).2.2 = false ∧
    (detect_chessboard
        (Vision.mk (fun (_ : Unit) _ cs => (false, cs)) (fun g => g) (fun _ cs => cs))
        () patternsize []).1 = 0 := by
  refine ⟨fun Img cv src patsize cs => ?_, rfl, rfl⟩
  simp only [detect_chessboard]
  cases hf : (cv.findChessboardCorners src patsize cs).1 <;> simp

/-! ## The main programs -/

/-- C6 as stated fails: in a run where `read_calibration_data_csv` returns -1 and the
first frame shows the chessboard, both `ar_main` and `gif_main` call `solvePnP` and
`projectPoints` on that frame. -/
theorem failed_calibration_still_processed :
    failed_calibration_env.calib_ret ≠ 0 ∧
    Event.solvePnP 54 ∈ (ar_main failed_calibration_env).1 ∧
    Event.projectPoints 4 ∈ (ar_main failed_calibration_env).1 ∧
    Event.solvePnP 54 ∈ (gif_main failed_calibration_env).1 ∧
    Event.projectPoints 4 ∈ (gif_main failed_calibration_env).1 := by
  have h1 : (ar_main failed_calibration_env).1
      = [Event.print "pattern found\n", Event.solvePnP 54, Event.print "Rotations:\n",
         Event.value 1, Event.value 2, Event.value 3, Event.print "\n\n",
         Event.print "Translations:\n", Event.value 1, Event.value 2, Event.value 3,
         Event.print "\n\n", Event.projectPoints 4, Event.arrowedLine 0 1,
         Event.arrowedLine 0 2, Event.arrowedLine 0 3, Event.imshow,
         Event.print "Bye!\n"] := by rfl
  have h2 : (gif_main failed_calibration_env).1
      = [Event.solvePnP 54, Event.print "Rotations:\n",
         Event.value 1, Event.value 2, Event.value 3, Event.print "\n\n",
         Event.print "Translations:\n", Event.value 1, Event.value 2, Event.value 3,
         Event.print "\n\n", Event.projectPoints 4, Event.printSize 4,
         Event.printPoint 0, Event.printPoint 1, Event.printPoint 2, Event.printPoint 3,
         Event.print "\x08]\n\n", Event.imread "kerm/input-0.png",
         Event.imshow, Event.print "Bye!\n"] := by rfl
  rw [h1, h2]
  refine ⟨by decide, ?_, ?_, ?_, ?_⟩ <;> simp

/-- C6, amended: a failed read of the calibration file does not stop `ar_main` or
`gif_main`: in every run in which `read_calibration_data_csv` reports failure (non-zero
return), the camera opens, and the first frame is not empty and shows the chessboard, the
program goes on to the per-frame loop and calls `solvePnP` on that frame. -/
theorem calibration_result_not_examined (env : Env) (f : Frame) (rest : List Frame)
    (_hfail : env.calib_ret ≠ 0) (hopen : env.opened = true)
    (hframes : env.frames = f :: rest)
    (hne : f.empty = false) (hfound : f.patternfound = true) :
    Event.solvePnP 54 ∈ (ar_main env).1 ∧ Event.solvePnP 54 ∈ (gif_main env).1 := by
  constructor
  · obtain ⟨tl, htl⟩ := ar_found_block_starts env.objpoints env.connections
      (Toggles.mk false false) f
    simp only [ar_main, hopen, hframes, Bool.not_true, Bool.false_eq_true, if_false]
    rw [ar_loop]
    simp only [hne, Bool.false_eq_true, if_false, hfound, if_true, htl]
    split_ifs <;> simp
  · obtain ⟨tl, htl⟩ := gif_found_block_starts 0 f
    simp only [gif_main, hopen, hframes, Bool.not_true, Bool.false_eq_true, if_false]
    rw [gif_loop]
    simp only [hne, Bool.false_eq_true, if_false, hfound, if_true, htl]
    split_ifs <;> simp

/-- The amended claim C6 at the run with an unreadable calibration file. -/
theorem calibration_result_not_examined_witness :
    Event.solvePnP 54 ∈ (ar_main failed_calibration_env).1 ∧
    Event.solvePnP 54 ∈ (gif_main failed_calibration_env).1 :=
  calibration_result_not_examined failed_calibration_env
    { empty := false, patternfound := true, rotations := [1, 2, 3],
      translations := [4, 5, 6], key := 'q' } [] (by decide) rfl rfl rfl rfl

/-- C7: for every origin and size, `draw_rect_prism`, `draw_roof` and `draw_door` called
in turn on an empty list give exactly 19 points: the 8 of the prism, then the 6 of the
roof, then the 5 of the door; the indices the house-mode drawing code reads are exactly
`0 .. 18`, and each is within a list of image points as long as the list of points. -/
theorem house_mode_points_spec (origin : Vec3f) (w h d : ℚ) (rooforig : Vec3f)
    (roofw roofh roofd : ℚ) (doororig : Vec3f) (doorw doorh doord : ℚ)
    (image_points : List Point2f)
    (hproj : image_points.length
      = (house_points_of origin w h d rooforig roofw roofh roofd
          doororig doorw doorh doord).length) :
    (house_points_of origin w h d rooforig roofw roofh roofd
        doororig doorw doorh doord).length = 19 ∧
    house_points_of origin w h d rooforig roofw roofh roofd doororig doorw doorh doord
      = (draw_rect_prism [] origin w h d).2 ++ (draw_roof [] rooforig roofw roofh roofd).2
          ++ (draw_door [] doororig doorw doorh doord).2 ∧
    (draw_rect_prism [] origin w h d).2.length = 8 ∧
    (draw_roof [] rooforig roofw roofh roofd).2.length = 6 ∧
    (draw_door [] doororig doorw doorh doord).2.length = 5 ∧
    (∀ i : Nat, i ∈ house_indices ↔ i ≤ 18) ∧
    (∀ i ∈ house_indices, i < image_points.length) := by
  have hlen : (house_points_of origin w h d rooforig roofw roofh roofd
        doororig doorw doorh doord).length = 19 := by
    simp [house_points_of, draw_rect_prism, draw_roof, draw_door]
  have hall : ∀ i ∈ house_indices, i ≤ 18 := by decide
  refine ⟨hlen, ?_, ?_, ?_, ?_, ?_, ?_⟩
  · simp [house_points_of, draw_rect_prism, draw_roof, draw_door]
  · simp [draw_rect_prism]
  · simp [draw_roof]
  · simp [draw_door]
  · intro i
    constructor
    · exact hall i
    · intro hi
      interval_cases i <;> decide
  · intro i hi
    rw [hproj, hlen]
    have := hall i hi
    omega

/-- The claim C7 at the literals of `ar_main.cpp`, with 19 image points. -/
theorem house_mode_points_spec_witness :
    house_points.length = 19 ∧
    (∀ i ∈ house_indices, i < (List.replicate 19 (Point2f.mk 0 0)).length) :=
  have h := house_mode_points_spec (Vec3f.mk 3 (-1) 0) 3 4 (11 / 2) (Vec3f.mk 3 (-1) 0)
    3 2 (11 / 2) (Vec3f.mk (15 / 4) (-5) 0) (3 / 4) 1 (11 / 2)
    (List.replicate 19 (Point2f.mk 0 0)) rfl
  ⟨rfl, h.2.2.2.2.2.2⟩

/-- C8: for the triangle `1 2 3` the object-file mode draws the two lines `2-1` and
`3-1`, not the three lines `2-1`, `3-2`, `3-1` of the closed outline; for every
connection the number of lines drawn is one less than the number of its vertices. -/
theorem face_lines_triangle_misses_edge :
    face_lines [1, 2, 3] = some [(2, 1), (3, 1)] ∧
    face_lines [1, 2, 3] ≠ some [(2, 1), (3, 2), (3, 1)] ∧
    (∀ (first : Int) (vs : List Int),
      (face_lines (first :: vs)).map List.length = some vs.length) := by
  refine ⟨by decide, by decide, fun first vs => ?_⟩
  simp [face_lines, face_lines_loop_length]

/-- C9: with rotation vector `(1, 2, 3)` and translation vector `(4, 5, 6)` the values
written under "Translations:" are 1, 2, 3, the entries of the rotation vector. -/
theorem print_pose_translations_are_rotations :
    print_pose [1, 2, 3] [4, 5, 6]
      = some [Event.print "Rotations:\n", Event.value 1, Event.value 2, Event.value 3,
          Event.print "\n\n", Event.print "Translations:\n", Event.value 1, Event.value 2,
          Event.value 3, Event.print "\n\n"] := by
  rfl

/-- C10 as stated fails: after the keys `n`, `n`, `n` (the last two being the same mode
key twice in a row) the house mode is on, not the axes mode. -/
theorem same_key_twice_not_axes :
    (ar_loop [] [] (key_frames ['n', 'n', 'n']) (Toggles.mk false false)).2.2
      = Toggles.mk true false ∧
    (handle_key 'n' (handle_key 'n' (Toggles.mk true false)).1).1 ≠ Toggles.mk false false := by
  constructor <;> decide

/-- C10, amended: starting from both flags false, after any sequence of frames the two
flags are never both true; `n` flips `show_vo` and clears `show_ext`, `e` flips
`show_ext` and clears `show_vo`, every other key leaves both unchanged; pressing the
same mode key twice in a row gives the axes mode when that key's flag was off, and
gives that key's mode alone when its flag was on. -/
theorem toggles_spec :
    (∀ (objpoints : List Vec3f) (connections : List (List Int)) (frames : List Frame),
      ¬ ((ar_loop objpoints connections frames (Toggles.mk false false)).2.2.show_vo = true ∧
         (ar_loop objpoints connections frames (Toggles.mk false false)).2.2.show_ext = true)) ∧
    (∀ t : Toggles, (handle_key 'n' t).1 = Toggles.mk (!t.show_vo) false) ∧
    (∀ t : Toggles, (handle_key 'e' t).1 = Toggles.mk false (!t.show_ext)) ∧
    (∀ (k : Char) (t : Toggles), k ≠ 'n' → k ≠ 'e' → (handle_key k t).1 = t) ∧
    (∀ t : Toggles, t.show_vo = false →
      (handle_key 'n' (handle_key 'n' t).1).1 = Toggles.mk false false) ∧
    (∀ t : Toggles, t.show_ext = false →
      (handle_key 'e' (handle_key 'e' t).1).1 = Toggles.mk false false) ∧
    (∀ t : Toggles, t.show_vo = true →
      (handle_key 'n' (handle_key 'n' t).1).1 = Toggles.mk true false) ∧
    (∀ t : Toggles, t.show_ext = true →
      (handle_key 'e' (handle_key 'e' t).1).1 = Toggles.mk false true) := by
  refine ⟨fun objpoints connections frames =>
      ar_loop_exclusive objpoints connections frames _ (by simp), ?_, ?_, ?_, ?_, ?_, ?_, ?_⟩
  · intro t; rfl
  · intro t; rfl
  · intro k t hn he
    unfold handle_key
    split_ifs <;> rfl
  · intro t ht
    simp [handle_key, ht]
  · intro t ht
    simp [handle_key, ht]
  · intro t ht
    simp [handle_key, ht]
  · intro t ht
    simp [handle_key, ht]

/-- The amended claim C10 from the axes mode: `n` pressed twice gives the axes mode. -/
theorem toggles_spec_witness :
    (handle_key 'n' (handle_key 'n' (Toggles.mk false false)).1).1 = Toggles.mk false false :=
  toggles_spec.2.2.2.2.1 (Toggles.mk false false) rfl

/-! ## The overlay counter and the box edges -/

/-- C11: in `gif_main` the loop starts with `kermitcount = 0`; in every run the files read
are `kerm/input-(k mod 19).png` for `k = 0, 1, 2, ...` in order, and with `n` files read
`kermitcount` is `n mod 19`, so between 0 and 18; `n` is the number of frames in which
the pattern was found (for frames that are not empty, without the `q` key, and with a
pose of at most as many translation rows as rotation rows); a frame in which no pattern
is found leaves `kermitcount` unchanged. -/
theorem kermitcount_cycles (frames : List Frame) :
    (∀ env : Env, env.opened = true →
      gif_main env = ((gif_loop env.frames 0).1, (gif_loop env.frames 0).2.1)) ∧
    imread_names (gif_loop frames 0).1
      = (List.range (imread_names (gif_loop frames 0).1).length).map
          (fun k => kermit_file ((k % 19 : Nat) : Int)) ∧
    (gif_loop frames 0).2.2 = (((imread_names (gif_loop frames 0).1).length % 19 : Nat) : Int) ∧
    0 ≤ (gif_loop frames 0).2.2 ∧ (gif_loop frames 0).2.2 ≤ 18 ∧
    ((∀ f ∈ frames, f.empty = false ∧ f.key ≠ 'q' ∧
        f.translations.length ≤ f.rotations.length) →
      (imread_names (gif_loop frames 0).1).length = frames.countP (fun f => f.patternfound)) ∧
    (∀ (f : Frame) (c : Int), f.patternfound = false → (gif_loop [f] c).2.2 = c) ∧
    kermit_file 0 = "kerm/input-0.png" ∧ kermit_file 18 = "kerm/input-18.png" := by
  obtain ⟨m, h1, h2⟩ := gif_loop_reads_aux frames 0 (by omega)
  have hm : (imread_names (gif_loop frames 0).1).length = m := by
    have := congrArg List.length h1
    simpa using this
  simp only [Nat.zero_add, Nat.cast_zero] at h1 h2
  refine ⟨?_, ?_, ?_, ?_, ?_, ?_, ?_, by decide, by decide⟩
  · intro env hopen
    simp [gif_main, hopen]
  · rw [hm]; exact h1
  · rw [hm]; exact h2
  · rw [h2]; omega
  · rw [h2]; omega
  · intro hall
    simpa using gif_loop_count frames 0 (by omega) hall
  · intro f c hf
    rw [gif_loop]
    by_cases he : f.empty = true
    · simp [he]
    · by_cases hq : f.key = 'q' <;> simp [he, hf, hq, gif_loop]

/-- The claim C11 at a run of 20 frames showing the chessboard: the counter has wrapped
once and is 1. -/
theorem kermitcount_cycles_witness : (gif_loop (found_frames 20) 0).2.2 = 1 := by
  have h := kermitcount_cycles (found_frames 20)
  have hn := h.2.2.2.2.2.1 (by decide)
  rw [h.2.2.1, hn]
  decide

/-- C12 as stated fails: with width 0 the two ends of the drawn pair `0 - 1` are the same
point, so they differ in no coordinate. -/
theorem house_box_edge_degenerate :
    (0, 1) ∈ house_box_lines ∧
    (draw_rect_prism [] (Vec3f.mk 0 0 0) 0 1 1).2[0]? = some (Vec3f.mk 0 0 0) ∧
    (draw_rect_prism [] (Vec3f.mk 0 0 0) 0 1 1).2[1]? = some (Vec3f.mk 0 0 0) := by
  refine ⟨by decide, ?_, ?_⟩ <;> simp [draw_rect_prism]

/-- C12, amended: the 12 index pairs joined among points `0 .. 7` in house mode are
exactly the 12 edges of the box of `draw_rect_prism`: the corner labels of the two ends of
each pair differ in exactly one position (so no pair joins diagonal corners), the 12 pairs
are pairwise distinct also without their direction, and every pair of corners that differ
in one position is among them; for every origin and sizes (exact arithmetic) both ends of
each pair are points of the box, they agree in two coordinates and differ by `w` in `x`,
by `h` in `y` or by `d` in `z`; with `w`, `h` and `d` all non-zero exactly one coordinate
differs. -/
theorem house_box_lines_are_edges (o : Vec3f) (w h d : ℚ) :
    house_box_lines.length = 12 ∧
    (house_box_lines.map unordered).Nodup ∧
    (∀ p ∈ house_box_lines, p.1 < 8 ∧ p.2 < 8 ∧
      differ_count (prism_order.getD p.1 (0, 0, 0)) (prism_order.getD p.2 (0, 0, 0)) = 1) ∧
    (∀ i j : Nat, i < 8 → j < 8 →
      differ_count (prism_order.getD i (0, 0, 0)) (prism_order.getD j (0, 0, 0)) = 1 →
      (i, j) ∈ house_box_lines ∨ (j, i) ∈ house_box_lines) ∧
    (∀ p ∈ house_box_lines, ∃ P Q : Vec3f,
      (draw_rect_prism [] o w h d).2[p.1]? = some P ∧
      (draw_rect_prism [] o w h d).2[p.2]? = some Q ∧
      (((Q.x - P.x = w ∨ P.x - Q.x = w) ∧ Q.y = P.y ∧ Q.z = P.z) ∨
       (Q.x = P.x ∧ (Q.y - P.y = h ∨ P.y - Q.y = h) ∧ Q.z = P.z) ∨
       (Q.x = P.x ∧ Q.y = P.y ∧ (Q.z - P.z = d ∨ P.z - Q.z = d)))) ∧
    (w ≠ 0 → h ≠ 0 → d ≠ 0 → ∀ p ∈ house_box_lines, ∃ P Q : Vec3f,
      (draw_rect_prism [] o w h d).2[p.1]? = some P ∧
      (draw_rect_prism [] o w h d).2[p.2]? = some Q ∧
      ((Q.x ≠ P.x ∧ Q.y = P.y ∧ Q.z = P.z) ∨
       (Q.x = P.x ∧ Q.y ≠ P.y ∧ Q.z = P.z) ∨
       (Q.x = P.x ∧ Q.y = P.y ∧ Q.z ≠ P.z))) := by
  have hpts : (draw_rect_prism [] o w h d).2
      = [Vec3f.mk o.x o.y o.z, Vec3f.mk (o.x + w) o.y o.z, Vec3f.mk (o.x + w) o.y (o.z + d),
         Vec3f.mk o.x o.y (o.z + d), Vec3f.mk o.x (o.y - h) o.z,
         Vec3f.mk (o.x + w) (o.y - h) o.z, Vec3f.mk (o.x + w) (o.y - h) (o.z + d),
         Vec3f.mk o.x (o.y - h) (o.z + d)] := by
    simp [draw_rect_prism]
  rw [hpts]
  refine ⟨rfl, by decide, by decide, ?_, ?_, ?_⟩
  · intro i j hi hj
    interval_cases i <;> interval_cases j <;> decide
  · intro p hp
    simp only [house_box_lines, List.mem_cons, List.mem_singleton, List.not_mem_nil,
      or_false] at hp
    rcases hp with rfl | rfl | rfl | rfl | rfl | rfl | rfl | rfl | rfl | rfl | rfl | rfl <;>
      exact ⟨_, _, rfl, rfl, by simp⟩
  · intro hw hh hd p hp
    have hy : ¬ o.y = o.y - h := fun e => hh (by linarith)
    have hy' : ¬ o.y - h = o.y := fun e => hh (by linarith)
    simp only [house_box_lines, List.mem_cons, List.mem_singleton, List.not_mem_nil,
      or_false] at hp
    rcases hp with rfl | rfl | rfl | rfl | rfl | rfl | rfl | rfl | rfl | rfl | rfl | rfl <;>
      exact ⟨_, _, rfl, rfl, by simp [hw, hh, hd, hy, hy']⟩

/-- The amended claim C12 at the box of the house mode and the pair `0 - 1`: both ends are
points of the box and they differ in `x` only. -/
theorem house_box_lines_are_edges_witness :
    ∃ P Q : Vec3f,
      (draw_rect_prism [] (Vec3f.mk 3 (-1) 0) 3 4 (11 / 2)).2[(0, 1).1]? = some P ∧
      (draw_rect_prism [] (Vec3f.mk 3 (-1) 0) 3 4 (11 / 2)).2[(0, 1).2]? = some Q ∧
      ((Q.x ≠ P.x ∧ Q.y = P.y ∧ Q.z = P.z) ∨
       (Q.x = P.x ∧ Q.y ≠ P.y ∧ Q.z = P.z) ∨
       (Q.x = P.x ∧ Q.y = P.y ∧ Q.z ≠ P.z)) :=
  (house_box_lines_are_edges (Vec3f.mk 3 (-1) 0) 3 4 (11 / 2)).2.2.2.2.2
    (by norm_num) (by norm_num) (by norm_num) (0, 1) (by decide)

end AR
